import Mathlib

/-!
Shallow embedding of the CnF-Infinity canvas application (src/main.rs).

Coordinates (`f32` in the Rust source) are modelled as exact rationals `ℚ`;
all arithmetic the embedded functions perform is carried out symbolically on
`ℚ`, mirroring the source expressions term by term.  Machine integers
(`usize`, `u8`) are modelled as `Nat`.  `Vec::push`/`Vec::pop` operate at the
end of a Rust vector; the undo/redo stacks are modelled as Lean lists whose
head is the stack top, which preserves the push/pop discipline exactly.
-/

namespace CnF

/-- Embeds `egui::Pos2`, a point with `x`/`y` coordinates. -/
structure Pos2 where
  x : ℚ
  y : ℚ
deriving DecidableEq

/-- Embeds `egui::Vec2`, a 2-d vector (used for node sizes and the pan offset). -/
structure Vec2 where
  x : ℚ
  y : ℚ
deriving DecidableEq

/-- Embeds `egui::Color32`, four channel bytes `(r, g, b, a)`. -/
structure Color32 where
  r : Nat
  g : Nat
  b : Nat
  a : Nat
deriving DecidableEq

/-- Embeds `enum NodeType { Note, Code }` from src/main.rs. -/
inductive NodeType where
  | Note
  | Code
deriving DecidableEq

/-- Embeds `enum Side { Top, Bottom, Left, Right }` from src/main.rs. -/
inductive Side where
  | Top
  | Bottom
  | Left
  | Right
deriving DecidableEq

/-- Embeds `struct NodeConnection` from src/main.rs. -/
structure NodeConnection where
  start_node_id : Nat
  start_node_type : NodeType
  start_side : Side
  end_node_id : Nat
  end_node_type : NodeType
  end_side : Side
  control_points : Option (Pos2 × Pos2)
  color : Color32
deriving DecidableEq

/-- Embeds `struct NoteNode` from src/main.rs. -/
structure NoteNode where
  id : Nat
  position : Pos2
  size : Vec2
  text : String
  is_dragging : Bool
  locked : Bool
deriving DecidableEq

/-- Embeds `struct CodeNode` from src/main.rs. -/
structure CodeNode where
  id : Nat
  position : Pos2
  size : Vec2
  file_path : String
  code : String
  is_dragging : Bool
  locked : Bool
  line_offset : Option Nat
deriving DecidableEq

/-- Embeds `struct Stroke` from src/main.rs: a freehand ink stroke. -/
structure Stroke where
  points : List Pos2
  color : Color32
  thickness : ℚ
deriving DecidableEq

/-- Embeds `struct ProjectSnapshot` from src/main.rs: the unit of undo/redo. -/
structure ProjectSnapshot where
  note_nodes : List NoteNode
  code_nodes : List CodeNode
  connections : List NodeConnection
  strokes : List Stroke
  zoom : ℚ
  offset : Vec2
deriving DecidableEq

/-- Embeds `struct ProjectHistory` from src/main.rs: the persisted document. -/
structure ProjectHistory where
  undo_stack : List ProjectSnapshot
  redo_stack : List ProjectSnapshot
  current : ProjectSnapshot
deriving DecidableEq

/-- The application state fields of `struct MyApp` that the embedded
operations read or write (rendering-only fields such as `tools_open`,
`drag_start` and the file-system handles are omitted). -/
structure MyApp where
  zoom : ℚ
  offset : Vec2
  next_note_id : Nat
  note_nodes : List NoteNode
  code_nodes : List CodeNode
  connections : List NodeConnection
  marker_active : Bool
  eraser_active : Bool
  current_stroke : Option Stroke
  strokes : List Stroke
  arrow_connection_active : Bool
  connection_start : Option (Nat × NodeType × Side)
  undo_stack : List ProjectSnapshot
  redo_stack : List ProjectSnapshot
  selected_node : Option Nat
deriving DecidableEq

/-- Embeds `impl Default for MyApp` from src/main.rs. -/
def default_app : MyApp where
  zoom := 2
  offset := ⟨0, 0⟩
  next_note_id := 1
  note_nodes := []
  code_nodes := []
  connections := []
  marker_active := false
  eraser_active := false
  current_stroke := none
  strokes := []
  arrow_connection_active := false
  connection_start := none
  undo_stack := []
  redo_stack := []
  selected_node := none

/-- Embeds `MyApp::take_snapshot` from src/main.rs. -/
def MyApp.take_snapshot (app : MyApp) : ProjectSnapshot where
  note_nodes := app.note_nodes
  code_nodes := app.code_nodes
  connections := app.connections
  strokes := app.strokes
  zoom := app.zoom
  offset := app.offset

/-- Embeds `MyApp.restore_snapshot` from src/main.rs. -/
def MyApp.restore_snapshot (app : MyApp) (snapshot : ProjectSnapshot) : MyApp :=
  { app with
    note_nodes := snapshot.note_nodes
    code_nodes := snapshot.code_nodes
    connections := snapshot.connections
    strokes := snapshot.strokes
    zoom := snapshot.zoom
    offset := snapshot.offset }

/-- Embeds `MyApp::record_state` from src/main.rs: push the current snapshot onto
the undo stack and clear the redo stack. -/
def MyApp.record_state (app : MyApp) : MyApp :=
  { app with
    undo_stack := app.take_snapshot :: app.undo_stack
    redo_stack := [] }

/-- Embeds `MyApp::undo` from src/main.rs. -/
def MyApp.undo (app : MyApp) : MyApp :=
  match app.undo_stack with
  | [] => app
  | snapshot :: rest =>
      MyApp.restore_snapshot
        { app with
          undo_stack := rest
          redo_stack := app.take_snapshot :: app.redo_stack }
        snapshot

/-- Embeds `MyApp::redo` from src/main.rs. -/
def MyApp.redo (app : MyApp) : MyApp :=
  match app.redo_stack with
  | [] => app
  | snapshot :: rest =>
      MyApp.restore_snapshot
        { app with
          redo_stack := rest
          undo_stack := app.take_snapshot :: app.undo_stack }
        snapshot

/-- The `"New"` button handler from `MyApp::update` (src/main.rs lines
1204-1220): clear the collections and the interaction flags, reset zoom and
offset, clear both stacks, then record the emptied state.  (`current_stroke`
is not cleared by the Rust handler.) -/
def MyApp.new_command (app : MyApp) : MyApp :=
  MyApp.record_state
    { app with
      note_nodes := []
      code_nodes := []
      connections := []
      strokes := []
      marker_active := false
      eraser_active := false
      arrow_connection_active := false
      connection_start := none
      selected_node := none
      zoom := 2
      offset := ⟨0, 0⟩
      undo_stack := []
      redo_stack := [] }

/-- The `"Note Node"` button handler from `MyApp::update` (src/main.rs lines
1269-1294).  The new node position is computed in the source from the screen
center, offset, zoom and node count; that computed position is taken here as
the parameter `new_pos`.  The handler pushes the new note, records state,
then increments `next_note_id`. -/
def MyApp.add_note_node (app : MyApp) (new_pos : Pos2) : MyApp :=
  let app' := { app with
    note_nodes := app.note_nodes ++
      [NoteNode.mk app.next_note_id new_pos ⟨200, 40⟩ "" false false] }
  let app'' := app'.record_state
  { app'' with next_note_id := app''.next_note_id + 1 }

/-- The snapshot of a freshly cleared document: everything empty, zoom `2`,
offset zero. -/
def empty_snapshot : ProjectSnapshot :=
  ⟨[], [], [], [], 2, ⟨0, 0⟩⟩

/-- Embeds `fn side_normal` from src/main.rs: the outward unit normal of a side. -/
def side_normal : Side → Vec2
  | .Top => ⟨0, -1⟩
  | .Bottom => ⟨0, 1⟩
  | .Left => ⟨-1, 0⟩
  | .Right => ⟨1, 0⟩

/-- Embeds `fn connection_point` from src/main.rs: the anchor point for the
`arrow_index`-th of `total` arrows sharing a node side, at fraction
`(arrow_index + 1) / (total + 1)` along the side. -/
def connection_point (node_pos : Pos2) (node_size : Vec2) (side : Side)
    (arrow_index total : Nat) : Pos2 :=
  let fraction : ℚ := ((arrow_index : ℚ) + 1) / ((total : ℚ) + 1)
  match side with
  | .Top => ⟨node_pos.x + node_size.x * fraction, node_pos.y⟩
  | .Bottom => ⟨node_pos.x + node_size.x * fraction, node_pos.y + node_size.y⟩
  | .Left => ⟨node_pos.x, node_pos.y + node_size.y * fraction⟩
  | .Right => ⟨node_pos.x + node_size.x, node_pos.y + node_size.y * fraction⟩

/-- Embeds `fn get_arrow_index` from src/main.rs: scan the connection list and,
among connections whose START endpoint matches `(node_id, side)`, return the
rank of the current connection and the total count.  The Rust code
identifies the current connection by pointer equality with a list element
(`std::ptr::eq`); here `current` is that element's position in the list. -/
def get_arrow_index (connections : List NodeConnection) (node_id : Nat)
    (side : Side) (current : Nat) : Nat × Nat :=
  let step := fun (acc : Nat × Nat) (pc : Nat × NodeConnection) =>
    if pc.2.start_node_id = node_id ∧ pc.2.start_side = side then
      (if pc.1 = current then acc.2 else acc.1, acc.2 + 1)
    else acc
  (connections.enum.foldl step (0, 0))

/-- Modelled from the spec ("repeat independently for the end anchor"): the
rank/total pair counting, among all connections, those whose END endpoint
matches `(node_id, side)`.  This is the rule C4 claims for the end anchor,
stated for comparison with `get_arrow_index` as the source computes it. -/
def spec_end_rank (connections : List NodeConnection) (node_id : Nat)
    (side : Side) (current : Nat) : Nat × Nat :=
  let step := fun (acc : Nat × Nat) (pc : Nat × NodeConnection) =>
    if pc.2.end_node_id = node_id ∧ pc.2.end_side = side then
      (if pc.1 = current then acc.2 else acc.1, acc.2 + 1)
    else acc
  (connections.enum.foldl step (0, 0))

/-- Embeds `fn determine_closest_side` from `MyApp::update` (src/main.rs lines
744-776): compare the absolute distances from the point to each side's
line and pick the smallest, preferring Top, then Bottom, then Left. -/
def determine_closest_side (node_pos : Pos2) (node_size : Vec2)
    (point : Pos2) : Side :=
  let left := node_pos.x
  let right := node_pos.x + node_size.x
  let top := node_pos.y
  let bottom := node_pos.y + node_size.y
  let dist_top := |point.y - top|
  let dist_bottom := |point.y - bottom|
  let dist_left := |point.x - left|
  let dist_right := |point.x - right|
  if dist_top ≤ dist_bottom ∧ dist_top ≤ dist_left ∧ dist_top ≤ dist_right then
    Side.Top
  else if dist_bottom ≤ dist_top ∧ dist_bottom ≤ dist_left ∧ dist_bottom ≤ dist_right then
    Side.Bottom
  else if dist_left ≤ dist_top ∧ dist_left ≤ dist_bottom ∧ dist_left ≤ dist_right then
    Side.Left
  else
    Side.Right

/-- The distance from `point` to the line carrying a given side of the
rectangle `(node_pos, node_size)` — the four `dist_*` values computed by
`determine_closest_side`. -/
def side_line_dist (node_pos : Pos2) (node_size : Vec2) (point : Pos2) :
    Side → ℚ
  | .Top => |point.y - node_pos.y|
  | .Bottom => |point.y - (node_pos.y + node_size.y)|
  | .Left => |point.x - node_pos.x|
  | .Right => |point.x - (node_pos.x + node_size.x)|

/-- The midpoint of a given side of the rectangle `(node_pos, node_size)`. -/
def side_midpoint (node_pos : Pos2) (node_size : Vec2) : Side → Pos2
  | .Top => ⟨node_pos.x + node_size.x / 2, node_pos.y⟩
  | .Bottom => ⟨node_pos.x + node_size.x / 2, node_pos.y + node_size.y⟩
  | .Left => ⟨node_pos.x, node_pos.y + node_size.y / 2⟩
  | .Right => ⟨node_pos.x + node_size.x, node_pos.y + node_size.y / 2⟩

/-- Squared Euclidean distance between two points.  For nonnegative
thresholds `t`, the source comparison `p.distance(q) ≥ t` is equivalent to
`dist_sq p q ≥ t²`, which avoids the square root. -/
def dist_sq (p q : Pos2) : ℚ :=
  (p.x - q.x) ^ 2 + (p.y - q.y) ^ 2

/-- The length of a side of a node of size `node_size` (horizontal sides
run along `x`, vertical sides along `y`). -/
def side_len (node_size : Vec2) : Side → ℚ
  | .Top | .Bottom => node_size.x
  | .Left | .Right => node_size.y

/-- The starting coordinate of a side: the `x` of the left corner for
horizontal sides, the `y` of the top corner for vertical sides. -/
def side_start (node_pos : Pos2) : Side → ℚ
  | .Top | .Bottom => node_pos.x
  | .Left | .Right => node_pos.y

/-- The coordinate of a point that varies along a given side. -/
def along (side : Side) (p : Pos2) : ℚ :=
  match side with
  | .Top | .Bottom => p.x
  | .Left | .Right => p.y

/-- The `fallback_note` value from the connection-rendering loop of
`MyApp::update` (src/main.rs lines 485-492). -/
def fallback_note : NoteNode :=
  ⟨0, ⟨0, 0⟩, ⟨1, 1⟩, "", false, false⟩

/-- The `fallback_code` value from the connection-rendering loop of
`MyApp::update` (src/main.rs lines 493-502). -/
def fallback_code : CodeNode :=
  ⟨0, ⟨0, 0⟩, ⟨1, 1⟩, "", "", false, false, none⟩

/-- Embeds `self.note_nodes.iter().find(|n| n.id == id).unwrap_or(&fallback_note)`
from the connection-rendering loop. -/
def resolve_note (note_nodes : List NoteNode) (node_id : Nat) : NoteNode :=
  (note_nodes.find? fun n => n.id == node_id).getD fallback_note

/-- Embeds `self.code_nodes.iter().find(|n| n.id == id).unwrap_or(&fallback_code)`
from the connection-rendering loop. -/
def resolve_code (code_nodes : List CodeNode) (node_id : Nat) : CodeNode :=
  (code_nodes.find? fun n => n.id == node_id).getD fallback_code

/-- Endpoint resolution of the connection-rendering loop: the document-space
position and size used for one endpoint of a connection, chosen by node
kind, falling back to `fallback_note`/`fallback_code` when absent.  (The
loop then scales these by `zoom` and adds `offset`.) -/
def resolve_endpoint (note_nodes : List NoteNode) (code_nodes : List CodeNode)
    (ntype : NodeType) (node_id : Nat) : Pos2 × Vec2 :=
  match ntype with
  | .Note =>
      let node := resolve_note note_nodes node_id
      (node.position, node.size)
  | .Code =>
      let node := resolve_code code_nodes node_id
      (node.position, node.size)

/-- One frame of the eraser branch of `MyApp::update` (src/main.rs lines
688-703) at eraser document position `canvas_pos`: each stroke keeps the
points at squared distance at least `(10 / zoom)²` (the source compares the
Euclidean distance against `threshold = 10.0 / zoom`), then strokes with
fewer than 2 remaining points are dropped. -/
def erase_step (strokes : List Stroke) (canvas_pos : Pos2) (zoom : ℚ) :
    List Stroke :=
  let threshold := 10 / zoom
  let strokes' := strokes.map fun s =>
    { s with points := s.points.filter fun p =>
        threshold ^ 2 ≤ dist_sq p canvas_pos }
  strokes'.filter fun s => 1 < s.points.length

/-- Embeds `f32::clamp` as used on the zoom value: returns `lo` below the range,
`hi` above it, the argument otherwise. -/
def clamp (x lo hi : ℚ) : ℚ :=
  if x < lo then lo else if hi < x then hi else x

/-- The zoom logic of `MyApp::update` (src/main.rs lines 866-870) for one
frame with scroll delta `scroll`: when the delta is nonzero, multiply zoom
by `1 + scroll * 0.001` and clamp it to `[0.4, 4.0]`. -/
def zoom_update (zoom scroll : ℚ) : ℚ :=
  if scroll ≠ 0 then clamp (zoom * (1 + scroll * (1 / 1000))) (4 / 10) 4
  else zoom

/-- A finite sequence of scroll-driven zoom updates. -/
def apply_scrolls (zoom : ℚ) (scrolls : List ℚ) : ℚ :=
  scrolls.foldl zoom_update zoom

/-!
The document codec.  `MyApp::save_project`/`load_project` run the snapshot
through `serde_json`, with the field layout fixed by the `derive` attributes
and the custom `ser_de` module of src/main.rs: structs become objects with
their Rust fields in declaration order, unit enum variants become their
variant-name strings, `Color32` becomes an `(r, g, b, a)` tuple, `Pos2` and
`Vec2` become `(x, y)` tuples, `Option` becomes `null` or the value.  The
textual rendering of the resulting JSON value tree is `serde_json`'s and is
out of scope; the codec is embedded at the JSON-value level.
-/

/-- A JSON value. -/
inductive JVal where
  | jnull
  | jbool (b : Bool)
  | jnat (n : Nat)
  | jrat (q : ℚ)
  | jstr (s : String)
  | jarr (elems : List JVal)
  | jobj (fields : List (String × JVal))

/-- Embeds `ser_de::serialize_color`: a color as an `(r, g, b, a)` tuple. -/
def serialize_color (c : Color32) : JVal :=
  .jarr [.jnat c.r, .jnat c.g, .jnat c.b, .jnat c.a]

/-- Embeds `ser_de::deserialize_color`. -/
def deserialize_color : JVal → Option Color32
  | .jarr [.jnat r, .jnat g, .jnat b, .jnat a] => some ⟨r, g, b, a⟩
  | _ => none

/-- Embeds `ser_de::serialize_pos2`: a point as an `(x, y)` tuple. -/
def serialize_pos2 (p : Pos2) : JVal :=
  .jarr [.jrat p.x, .jrat p.y]

/-- Embeds `ser_de::deserialize_pos2`. -/
def deserialize_pos2 : JVal → Option Pos2
  | .jarr [.jrat x, .jrat y] => some ⟨x, y⟩
  | _ => none

/-- Embeds `ser_de::serialize_vec2`: a vector as an `(x, y)` tuple. -/
def serialize_vec2 (v : Vec2) : JVal :=
  .jarr [.jrat v.x, .jrat v.y]

/-- Embeds `ser_de::deserialize_vec2`. -/
def deserialize_vec2 : JVal → Option Vec2
  | .jarr [.jrat x, .jrat y] => some ⟨x, y⟩
  | _ => none

/-- Embeds `ser_de::serialize_pos2_vec`: a point list as a list of tuples. -/
def serialize_pos2_vec (points : List Pos2) : JVal :=
  .jarr (points.map serialize_pos2)

/-- Embeds `ser_de::deserialize_pos2_vec`. -/
def deserialize_pos2_vec : JVal → Option (List Pos2)
  | .jarr elems => elems.mapM deserialize_pos2
  | _ => none

/-- Embeds `ser_de::serialize_pos2_tuple`: an optional pair of points as `null` or
a pair of `(x, y)` tuples. -/
def serialize_pos2_tuple : Option (Pos2 × Pos2) → JVal
  | none => .jnull
  | some (p1, p2) => .jarr [serialize_pos2 p1, serialize_pos2 p2]

/-- Embeds `ser_de::deserialize_pos2_tuple`. -/
def deserialize_pos2_tuple : JVal → Option (Option (Pos2 × Pos2))
  | .jnull => some none
  | .jarr [a, b] => do
      let p1 ← deserialize_pos2 a
      let p2 ← deserialize_pos2 b
      some (some (p1, p2))
  | _ => none

/-- The serde serialization of the unit enum `NodeType`. -/
def serialize_node_type : NodeType → JVal
  | .Note => .jstr "Note"
  | .Code => .jstr "Code"

/-- Deserialization of `NodeType`. -/
def deserialize_node_type : JVal → Option NodeType
  | .jstr "Note" => some .Note
  | .jstr "Code" => some .Code
  | _ => none

/-- The serde serialization of the unit enum `Side`. -/
def serialize_side : Side → JVal
  | .Top => .jstr "Top"
  | .Bottom => .jstr "Bottom"
  | .Left => .jstr "Left"
  | .Right => .jstr "Right"

/-- Deserialization of `Side`. -/
def deserialize_side : JVal → Option Side
  | .jstr "Top" => some .Top
  | .jstr "Bottom" => some .Bottom
  | .jstr "Left" => some .Left
  | .jstr "Right" => some .Right
  | _ => none

/-- Serialization of `Option Nat` (the `line_offset` field). -/
def serialize_opt_nat : Option Nat → JVal
  | none => .jnull
  | some n => .jnat n

/-- Deserialization of `Option Nat`. -/
def deserialize_opt_nat : JVal → Option (Option Nat)
  | .jnull => some none
  | .jnat n => some (some n)
  | _ => none

/-- The derived serialization of `NodeConnection` (fields in declaration
order). -/
def serialize_connection (c : NodeConnection) : JVal :=
  .jobj [("start_node_id", .jnat c.start_node_id),
         ("start_node_type", serialize_node_type c.start_node_type),
         ("start_side", serialize_side c.start_side),
         ("end_node_id", .jnat c.end_node_id),
         ("end_node_type", serialize_node_type c.end_node_type),
         ("end_side", serialize_side c.end_side),
         ("control_points", serialize_pos2_tuple c.control_points),
         ("color", serialize_color c.color)]

/-- Deserialization of `NodeConnection`. -/
def deserialize_connection : JVal → Option NodeConnection
  | .jobj [("start_node_id", .jnat sid), ("start_node_type", st),
           ("start_side", ss), ("end_node_id", .jnat eid),
           ("end_node_type", et), ("end_side", es),
           ("control_points", cp), ("color", col)] => do
      let st' ← deserialize_node_type st
      let ss' ← deserialize_side ss
      let et' ← deserialize_node_type et
      let es' ← deserialize_side es
      let cp' ← deserialize_pos2_tuple cp
      let col' ← deserialize_color col
      some ⟨sid, st', ss', eid, et', es', cp', col'⟩
  | _ => none

/-- The derived serialization of `NoteNode`. -/
def serialize_note_node (n : NoteNode) : JVal :=
  .jobj [("id", .jnat n.id),
         ("position", serialize_pos2 n.position),
         ("size", serialize_vec2 n.size),
         ("text", .jstr n.text),
         ("is_dragging", .jbool n.is_dragging),
         ("locked", .jbool n.locked)]

/-- Deserialization of `NoteNode`. -/
def deserialize_note_node : JVal → Option NoteNode
  | .jobj [("id", .jnat i), ("position", p), ("size", s),
           ("text", .jstr t), ("is_dragging", .jbool d),
           ("locked", .jbool l)] => do
      let p' ← deserialize_pos2 p
      let s' ← deserialize_vec2 s
      some ⟨i, p', s', t, d, l⟩
  | _ => none

/-- The derived serialization of `CodeNode`. -/
def serialize_code_node (n : CodeNode) : JVal :=
  .jobj [("id", .jnat n.id),
         ("position", serialize_pos2 n.position),
         ("size", serialize_vec2 n.size),
         ("file_path", .jstr n.file_path),
         ("code", .jstr n.code),
         ("is_dragging", .jbool n.is_dragging),
         ("locked", .jbool n.locked),
         ("line_offset", serialize_opt_nat n.line_offset)]

/-- Deserialization of `CodeNode`. -/
def deserialize_code_node : JVal → Option CodeNode
  | .jobj [("id", .jnat i), ("position", p), ("size", s),
           ("file_path", .jstr f), ("code", .jstr c),
           ("is_dragging", .jbool d), ("locked", .jbool l),
           ("line_offset", off)] => do
      let p' ← deserialize_pos2 p
      let s' ← deserialize_vec2 s
      let off' ← deserialize_opt_nat off
      some ⟨i, p', s', f, c, d, l, off'⟩
  | _ => none

/-- The derived serialization of `Stroke`. -/
def serialize_stroke (s : Stroke) : JVal :=
  .jobj [("points", serialize_pos2_vec s.points),
         ("color", serialize_color s.color),
         ("thickness", .jrat s.thickness)]

/-- Deserialization of `Stroke`. -/
def deserialize_stroke : JVal → Option Stroke
  | .jobj [("points", pts), ("color", col), ("thickness", .jrat th)] => do
      let pts' ← deserialize_pos2_vec pts
      let col' ← deserialize_color col
      some ⟨pts', col', th⟩
  | _ => none

/-- The derived serialization of `ProjectSnapshot`. -/
def serialize_snapshot (s : ProjectSnapshot) : JVal :=
  .jobj [("note_nodes", .jarr (s.note_nodes.map serialize_note_node)),
         ("code_nodes", .jarr (s.code_nodes.map serialize_code_node)),
         ("connections", .jarr (s.connections.map serialize_connection)),
         ("strokes", .jarr (s.strokes.map serialize_stroke)),
         ("zoom", .jrat s.zoom),
         ("offset", serialize_vec2 s.offset)]

/-- Deserialization of `ProjectSnapshot`. -/
def deserialize_snapshot : JVal → Option ProjectSnapshot
  | .jobj [("note_nodes", .jarr nn), ("code_nodes", .jarr cn),
           ("connections", .jarr cc), ("strokes", .jarr ss),
           ("zoom", .jrat z), ("offset", off)] => do
      let nn' ← nn.mapM deserialize_note_node
      let cn' ← cn.mapM deserialize_code_node
      let cc' ← cc.mapM deserialize_connection
      let ss' ← ss.mapM deserialize_stroke
      let off' ← deserialize_vec2 off
      some ⟨nn', cn', cc', ss', z, off'⟩
  | _ => none

/-!  Theorems  -/

/-- C9: `record_state` pushes a copy of the current snapshot onto the undo
stack and leaves the redo stack empty, regardless of the redo stack's prior
contents. -/
theorem c9_record_state_linear_history (app : MyApp) :
    app.record_state.undo_stack = app.take_snapshot :: app.undo_stack ∧
    app.record_state.redo_stack = [] :=
  ⟨rfl, rfl⟩

theorem undo_keeps_empty (app : MyApp)
    (h1 : app.take_snapshot = empty_snapshot)
    (h2 : ∀ s ∈ app.undo_stack, s = empty_snapshot) :
    app.undo.take_snapshot = empty_snapshot ∧
    ∀ s ∈ app.undo.undo_stack, s = empty_snapshot := by
  rcases hstack : app.undo_stack with _ | ⟨snap, rest⟩
  · rw [MyApp.undo, hstack]
    exact ⟨h1, by rw [hstack]; simp⟩
  · rw [MyApp.undo, hstack]
    have hsnap : snap = empty_snapshot := h2 snap (by rw [hstack]; simp)
    refine ⟨by simp [MyApp.restore_snapshot, MyApp.take_snapshot, hsnap,
      empty_snapshot], ?_⟩
    intro s hs
    exact h2 s (by rw [hstack]; exact List.mem_cons_of_mem _ hs)

theorem undo_iterate_empty (k : Nat) :
    ∀ app : MyApp, app.take_snapshot = empty_snapshot →
    (∀ s ∈ app.undo_stack, s = empty_snapshot) →
    (MyApp.undo^[k] app).take_snapshot = empty_snapshot := by
  induction k with
  | zero => intro app h1 _; simpa using h1
  | succ n ih =>
      intro app h1 h2
      rw [Function.iterate_succ_apply]
      exact ih _ (undo_keeps_empty app h1 h2).1 (undo_keeps_empty app h1 h2).2

/-- C10: the New command clears the node, connection and stroke collections,
resets zoom to `2` and offset to zero, clears both stacks, then records the
emptied state, so the undo stack holds exactly the empty snapshot; no
sequence of `undo` calls can reach any other document state afterwards. -/
theorem c10_new_command_resets (app : MyApp) (k : Nat) :
    app.new_command.note_nodes = [] ∧
    app.new_command.code_nodes = [] ∧
    app.new_command.connections = [] ∧
    app.new_command.strokes = [] ∧
    app.new_command.zoom = 2 ∧
    app.new_command.offset = ⟨0, 0⟩ ∧
    app.new_command.undo_stack = [empty_snapshot] ∧
    app.new_command.redo_stack = [] ∧
    (MyApp.undo^[k] app.new_command).take_snapshot = empty_snapshot := by
  refine ⟨rfl, rfl, rfl, rfl, rfl, rfl, rfl, rfl, ?_⟩
  refine undo_iterate_empty k _ rfl ?_
  intro s hs
  simpa [MyApp.new_command, MyApp.record_state, MyApp.take_snapshot,
    empty_snapshot] using hs

/-- State A of the C1 failing scenario: a freshly reset document. -/
def c1_state_A : MyApp := default_app.new_command

/-- State B of the C1 failing scenario: state A after the Note Node command
(which pushes the note and then records history, after the mutation). -/
def c1_state_B : MyApp := c1_state_A.add_note_node ⟨0, 0⟩

/-- C1: the undo/redo inverse law fails on the code.  Pressing Note Node in
a fresh document mutates the state from A to B and records history once,
after the mutation; `undo()` then restores the just-recorded snapshot of B
itself, leaving the document at B, not at A. -/
theorem c1_undo_not_inverse_after_recorded_edit :
    c1_state_B.undo.take_snapshot = c1_state_B.take_snapshot ∧
    c1_state_B.undo.take_snapshot ≠ c1_state_A.take_snapshot := by
  constructor
  · rfl
  · decide

theorem clamp_mem (x lo hi : ℚ) (h : lo ≤ hi) :
    lo ≤ clamp x lo hi ∧ clamp x lo hi ≤ hi := by
  unfold clamp
  split_ifs with h1 h2 <;> constructor <;> linarith

/-- C8: starting from any zoom in `[0.4, 4.0]`, every finite sequence of
scroll-driven updates (`zoom *= 1 + scroll * 0.001`, then clamp) keeps the
zoom in `[0.4, 4.0]`. -/
theorem c8_zoom_clamp_invariant (z : ℚ) (hlo : 4 / 10 ≤ z) (hhi : z ≤ 4)
    (scrolls : List ℚ) :
    4 / 10 ≤ apply_scrolls z scrolls ∧ apply_scrolls z scrolls ≤ 4 := by
  induction scrolls generalizing z with
  | nil => exact ⟨hlo, hhi⟩
  | cons s rest ih =>
      have hstep : 4 / 10 ≤ zoom_update z s ∧ zoom_update z s ≤ 4 := by
        unfold zoom_update
        split_ifs with h
        · exact clamp_mem _ _ _ (by norm_num)
        · exact ⟨hlo, hhi⟩
      simpa [apply_scrolls, List.foldl] using ih (zoom_update z s) hstep.1 hstep.2

/-- Witness for C8 at zoom `2` and a concrete scroll sequence. -/
theorem c8_zoom_clamp_invariant_witness :
    ((4 : ℚ) / 10 ≤ 2 ∧ (2 : ℚ) ≤ 4) ∧
    (4 / 10 ≤ apply_scrolls 2 [100, -1000, 5000] ∧
      apply_scrolls 2 [100, -1000, 5000] ≤ 4) :=
  ⟨⟨by norm_num, by norm_num⟩,
    c8_zoom_clamp_invariant 2 (by norm_num) (by norm_num) [100, -1000, 5000]⟩

theorem mapM_map_roundtrip {α β : Type} (f : α → β) (g : β → Option α)
    (h : ∀ a, g (f a) = some a) (l : List α) : (l.map f).mapM g = some l := by
  induction l with
  | nil => rfl
  | cons x xs ih =>
      rw [List.map_cons, List.mapM_cons, h, ih]
      rfl

theorem deserialize_color_roundtrip (c : Color32) :
    deserialize_color (serialize_color c) = some c := rfl

theorem deserialize_pos2_roundtrip (p : Pos2) :
    deserialize_pos2 (serialize_pos2 p) = some p := rfl

theorem deserialize_vec2_roundtrip (v : Vec2) :
    deserialize_vec2 (serialize_vec2 v) = some v := rfl

theorem deserialize_node_type_roundtrip (t : NodeType) :
    deserialize_node_type (serialize_node_type t) = some t := by
  cases t <;> rfl

theorem deserialize_side_roundtrip (s : Side) :
    deserialize_side (serialize_side s) = some s := by
  cases s <;> rfl

theorem deserialize_opt_nat_roundtrip (o : Option Nat) :
    deserialize_opt_nat (serialize_opt_nat o) = some o := by
  cases o <;> rfl

theorem deserialize_pos2_tuple_roundtrip (o : Option (Pos2 × Pos2)) :
    deserialize_pos2_tuple (serialize_pos2_tuple o) = some o := by
  rcases o with _ | ⟨p1, p2⟩ <;> rfl

theorem deserialize_pos2_vec_roundtrip (l : List Pos2) :
    deserialize_pos2_vec (serialize_pos2_vec l) = some l := by
  simp only [serialize_pos2_vec, deserialize_pos2_vec]
  exact mapM_map_roundtrip _ _ deserialize_pos2_roundtrip l

theorem deserialize_connection_roundtrip (c : NodeConnection) :
    deserialize_connection (serialize_connection c) = some c := by
  simp [serialize_connection, deserialize_connection,
    deserialize_node_type_roundtrip, deserialize_side_roundtrip,
    deserialize_pos2_tuple_roundtrip, deserialize_color_roundtrip]

theorem deserialize_note_node_roundtrip (n : NoteNode) :
    deserialize_note_node (serialize_note_node n) = some n := by
  simp [serialize_note_node, deserialize_note_node,
    deserialize_pos2_roundtrip, deserialize_vec2_roundtrip]

theorem deserialize_code_node_roundtrip (n : CodeNode) :
    deserialize_code_node (serialize_code_node n) = some n := by
  simp [serialize_code_node, deserialize_code_node,
    deserialize_pos2_roundtrip, deserialize_vec2_roundtrip,
    deserialize_opt_nat_roundtrip]

theorem deserialize_stroke_roundtrip (s : Stroke) :
    deserialize_stroke (serialize_stroke s) = some s := by
  simp [serialize_stroke, deserialize_stroke,
    deserialize_pos2_vec_roundtrip, deserialize_color_roundtrip]

/-- C2: deserializing the serialized form of any `ProjectSnapshot` yields
exactly the original node, connection and stroke collections, zoom and
offset. -/
theorem c2_snapshot_roundtrip (s : ProjectSnapshot) :
    deserialize_snapshot (serialize_snapshot s) = some s := by
  simp only [serialize_snapshot, deserialize_snapshot]
  rw [mapM_map_roundtrip _ _ deserialize_note_node_roundtrip,
    mapM_map_roundtrip _ _ deserialize_code_node_roundtrip,
    mapM_map_roundtrip _ _ deserialize_connection_roundtrip,
    mapM_map_roundtrip _ _ deserialize_stroke_roundtrip]
  simp [deserialize_vec2_roundtrip]

theorem along_connection_point (node_pos : Pos2) (node_size : Vec2)
    (side : Side) (i N : Nat) :
    along side (connection_point node_pos node_size side i N) =
      side_start node_pos side +
        side_len node_size side * (((i : ℚ) + 1) / ((N : ℚ) + 1)) := by
  cases side <;> rfl

theorem along_side_midpoint (node_pos : Pos2) (node_size : Vec2) (side : Side) :
    along side (side_midpoint node_pos node_size side) =
      side_start node_pos side + side_len node_size side / 2 := by
  cases side <;> rfl

/-- C3: for a side of positive length and any total `N ≥ 1`, the `N` anchor
points produced by `connection_point` are strictly increasing along the
side, symmetric about the side midpoint, strictly inside the side, and for
`N = 1` the single anchor is exactly the side midpoint. -/
theorem c3_anchor_distribution (node_pos : Pos2) (node_size : Vec2)
    (side : Side) (N : Nat) (hlen : 0 < side_len node_size side) (hN : 1 ≤ N) :
    (∀ i j, i < j → j < N →
      along side (connection_point node_pos node_size side i N) <
        along side (connection_point node_pos node_size side j N)) ∧
    (∀ i, i < N →
      along side (connection_point node_pos node_size side i N) +
        along side (connection_point node_pos node_size side (N - 1 - i) N) =
      2 * along side (side_midpoint node_pos node_size side)) ∧
    (∀ i, i < N →
      side_start node_pos side <
        along side (connection_point node_pos node_size side i N) ∧
      along side (connection_point node_pos node_size side i N) <
        side_start node_pos side + side_len node_size side) ∧
    (N = 1 →
      connection_point node_pos node_size side 0 N =
        side_midpoint node_pos node_size side) := by
  have hNpos : (0 : ℚ) < (N : ℚ) + 1 := by positivity
  refine ⟨?_, ?_, ?_, ?_⟩
  · intro i j hij hjN
    rw [along_connection_point, along_connection_point]
    have hcast : (i : ℚ) < (j : ℚ) := by exact_mod_cast hij
    have hfrac : ((i : ℚ) + 1) / ((N : ℚ) + 1) < ((j : ℚ) + 1) / ((N : ℚ) + 1) := by
      gcongr
    have := mul_lt_mul_of_pos_left hfrac hlen
    linarith
  · intro i hi
    rw [along_connection_point, along_connection_point, along_side_midpoint]
    have h1 : (N - 1 - i) + (i + 1) = N := by omega
    have hc : ((N - 1 - i : Nat) : ℚ) = (N : ℚ) - ((i : ℚ) + 1) := by
      have h2 := congrArg (fun n : Nat => (n : ℚ)) h1
      push_cast at h2
      linarith
    have key : (((i : ℚ) + 1) / ((N : ℚ) + 1)) +
        ((((N - 1 - i : Nat) : ℚ) + 1) / ((N : ℚ) + 1)) = 1 := by
      rw [div_add_div_same, hc]
      have h3 : ((i : ℚ) + 1) + ((N : ℚ) - ((i : ℚ) + 1) + 1) = (N : ℚ) + 1 := by
        ring
      rw [h3, div_self (ne_of_gt hNpos)]
    have h4 : side_len node_size side * (((i : ℚ) + 1) / ((N : ℚ) + 1)) +
        side_len node_size side * ((((N - 1 - i : Nat) : ℚ) + 1) / ((N : ℚ) + 1)) =
        side_len node_size side := by
      rw [← mul_add, key, mul_one]
    linarith
  · intro i hi
    rw [along_connection_point]
    have hiN : ((i : ℚ) + 1) < ((N : ℚ) + 1) := by
      have : (i : ℚ) < (N : ℚ) := by exact_mod_cast hi
      linarith
    have hf0 : (0 : ℚ) < ((i : ℚ) + 1) / ((N : ℚ) + 1) := by positivity
    have hf1 : ((i : ℚ) + 1) / ((N : ℚ) + 1) < 1 := (div_lt_one hNpos).mpr hiN
    constructor
    · nlinarith
    · nlinarith
  · intro hN1
    subst hN1
    cases side <;>
      simp [connection_point, side_midpoint, Pos2.mk.injEq] <;> ring_nf

/-- Witness for C3 at a concrete node and `N = 2`. -/
theorem c3_anchor_distribution_witness :
    (0 < side_len ⟨12, 6⟩ Side.Top ∧ 1 ≤ 2) ∧
    (∀ i j, i < j → j < 2 →
      along Side.Top (connection_point ⟨0, 0⟩ ⟨12, 6⟩ Side.Top i 2) <
        along Side.Top (connection_point ⟨0, 0⟩ ⟨12, 6⟩ Side.Top j 2)) ∧
    (∀ i, i < 2 →
      along Side.Top (connection_point ⟨0, 0⟩ ⟨12, 6⟩ Side.Top i 2) +
        along Side.Top (connection_point ⟨0, 0⟩ ⟨12, 6⟩ Side.Top (2 - 1 - i) 2) =
      2 * along Side.Top (side_midpoint ⟨0, 0⟩ ⟨12, 6⟩ Side.Top)) ∧
    (∀ i, i < 2 →
      side_start ⟨0, 0⟩ Side.Top <
        along Side.Top (connection_point ⟨0, 0⟩ ⟨12, 6⟩ Side.Top i 2) ∧
      along Side.Top (connection_point ⟨0, 0⟩ ⟨12, 6⟩ Side.Top i 2) <
        side_start ⟨0, 0⟩ Side.Top + side_len ⟨12, 6⟩ Side.Top) ∧
    (2 = 1 →
      connection_point ⟨0, 0⟩ ⟨12, 6⟩ Side.Top 0 2 =
        side_midpoint ⟨0, 0⟩ ⟨12, 6⟩ Side.Top) :=
  ⟨⟨by norm_num [side_len], by norm_num⟩,
    c3_anchor_distribution ⟨0, 0⟩ ⟨12, 6⟩ Side.Top 2
      (by norm_num [side_len]) (by norm_num)⟩

/-- A connection from node 1 (Right side) to node 2 (Left side), the
failing configuration for C4 when present twice in the connection list. -/
def c4_conn : NodeConnection :=
  ⟨1, .Note, .Right, 2, .Note, .Left, none, ⟨187, 192, 206, 255⟩⟩

/-- C4: the end-anchor `(index, total)` pair is NOT computed over the
connections whose END endpoint matches.  With two connections both ending
at `(node 2, Left)`, the end-anchor call `get_arrow_index(conns, 2, Left,
conn)` matches START fields only, finds nothing, and returns `(0, 0)` for
both connections, whereas ranking by matching END endpoints would give
`(0, 2)` and `(1, 2)`; with total `0` the anchor fraction is `1`, placing
the anchor exactly at the side's corner. -/
theorem c4_end_anchor_counts_start_fields :
    get_arrow_index [c4_conn, c4_conn] 2 Side.Left 0 = (0, 0) ∧
    get_arrow_index [c4_conn, c4_conn] 2 Side.Left 1 = (0, 0) ∧
    spec_end_rank [c4_conn, c4_conn] 2 Side.Left 0 = (0, 2) ∧
    spec_end_rank [c4_conn, c4_conn] 2 Side.Left 1 = (1, 2) ∧
    connection_point ⟨0, 0⟩ ⟨10, 10⟩ Side.Left 0 0 = ⟨0, 10⟩ := by
  refine ⟨rfl, rfl, rfl, rfl, ?_⟩
  simp only [connection_point, Pos2.mk.injEq]
  norm_num

theorem min4_right {t b l r : ℚ} (h1 : ¬(t ≤ b ∧ t ≤ l ∧ t ≤ r))
    (h2 : ¬(b ≤ t ∧ b ≤ l ∧ b ≤ r)) (h3 : ¬(l ≤ t ∧ l ≤ b ∧ l ≤ r)) :
    r ≤ t ∧ r ≤ b ∧ r ≤ l := by
  simp only [not_and_or, not_le] at h1 h2 h3
  rcases h1 with h1 | h1 | h1 <;> rcases h2 with h2 | h2 | h2 <;>
    rcases h3 with h3 | h3 | h3 <;>
    exact ⟨by linarith, by linarith, by linarith⟩

/-- C5 counterexample: at the node rectangle `(0,0)`–`(10,10)` and click
point `(100, 4)`, `determine_closest_side` returns Top, although the Right
side's midpoint is strictly nearer to the click point than the Top side's
midpoint — the code does not implement the nearest-midpoint rule. -/
theorem c5_counterexample :
    determine_closest_side ⟨0, 0⟩ ⟨10, 10⟩ ⟨100, 4⟩ = Side.Top ∧
    dist_sq (side_midpoint ⟨0, 0⟩ ⟨10, 10⟩ Side.Right) ⟨100, 4⟩ <
      dist_sq (side_midpoint ⟨0, 0⟩ ⟨10, 10⟩ Side.Top) ⟨100, 4⟩ := by
  constructor
  · simp only [determine_closest_side]
    norm_num
  · simp only [dist_sq, side_midpoint]
    norm_num

/-- C5 amended: `determine_closest_side` returns a side whose distance to
the point, measured perpendicular to that side's line (the code's
`dist_top`/`dist_bottom`/`dist_left`/`dist_right`), is minimal among the
four sides (ties preferring Top, then Bottom, then Left). -/
theorem c5_amended_closest_side_minimizes_line_dist (node_pos : Pos2)
    (node_size : Vec2) (point : Pos2) (s : Side) :
    side_line_dist node_pos node_size point
      (determine_closest_side node_pos node_size point) ≤
    side_line_dist node_pos node_size point s := by
  simp only [determine_closest_side]
  split_ifs with h1 h2 h3
  · obtain ⟨a, b, c⟩ := h1
    cases s <;> simp only [side_line_dist] <;> linarith
  · obtain ⟨a, b, c⟩ := h2
    cases s <;> simp only [side_line_dist] <;> linarith
  · obtain ⟨a, b, c⟩ := h3
    cases s <;> simp only [side_line_dist] <;> linarith
  · obtain ⟨a, b, c⟩ := min4_right h1 h2 h3
    cases s <;> simp only [side_line_dist] <;> linarith

/-- C6 counterexample: with both node collections empty, the resolved node
for a dangling reference is the fallback at the document origin with size
`(1, 1)` — not a zero-size placeholder as claimed. -/
theorem c6_counterexample :
    (resolve_note [] 5).position = (⟨0, 0⟩ : Pos2) ∧
    (resolve_note [] 5).size = (⟨1, 1⟩ : Vec2) ∧
    (resolve_note [] 5).size ≠ (⟨0, 0⟩ : Vec2) := by
  refine ⟨rfl, rfl, ?_⟩
  decide

/-- C6 amended: a connection endpoint whose referenced node is absent from
the node collections resolves to the unit-size (1×1) fallback placeholder
at the document origin, for both node kinds; resolution is total, so the
connection is tolerated rather than removed. -/
theorem c6_amended_dangling_fallback (note_nodes : List NoteNode)
    (code_nodes : List CodeNode) (node_id : Nat)
    (hn : ∀ n ∈ note_nodes, n.id ≠ node_id)
    (hc : ∀ n ∈ code_nodes, n.id ≠ node_id) :
    resolve_endpoint note_nodes code_nodes NodeType.Note node_id =
      (⟨0, 0⟩, ⟨1, 1⟩) ∧
    resolve_endpoint note_nodes code_nodes NodeType.Code node_id =
      (⟨0, 0⟩, ⟨1, 1⟩) := by
  have h1 : note_nodes.find? (fun n => n.id == node_id) = none := by
    rw [List.find?_eq_none]
    intro n hmem
    simpa using hn n hmem
  have h2 : code_nodes.find? (fun n => n.id == node_id) = none := by
    rw [List.find?_eq_none]
    intro n hmem
    simpa using hc n hmem
  constructor
  · simp [resolve_endpoint, resolve_note, h1, fallback_note]
  · simp [resolve_endpoint, resolve_code, h2, fallback_code]

/-- Witness for C6 at empty node collections and node id 5. -/
theorem c6_amended_dangling_fallback_witness :
    ((∀ n ∈ ([] : List NoteNode), n.id ≠ 5) ∧
     (∀ n ∈ ([] : List CodeNode), n.id ≠ 5)) ∧
    (resolve_endpoint [] [] NodeType.Note 5 = (⟨0, 0⟩, ⟨1, 1⟩) ∧
     resolve_endpoint [] [] NodeType.Code 5 = (⟨0, 0⟩, ⟨1, 1⟩)) :=
  ⟨⟨by simp, by simp⟩,
    c6_amended_dangling_fallback [] [] 5 (by simp) (by simp)⟩

/-- A committed one-point stroke (a single marker click produces one). -/
def c7_stroke : Stroke := ⟨[⟨100, 100⟩], ⟨187, 192, 206, 255⟩, 2⟩

/-- C7 counterexample: a one-point stroke whose only point is far from the
eraser (distance 100√2, far above the threshold 10 at zoom 1) is dropped by
a single eraser step, so the stroke collection is not left unchanged. -/
theorem c7_counterexample :
    (∀ p ∈ c7_stroke.points, (10 / (1 : ℚ)) ^ 2 < dist_sq p ⟨0, 0⟩) ∧
    erase_step [c7_stroke] ⟨0, 0⟩ 1 = [] ∧
    ([] : List Stroke) ≠ [c7_stroke] := by
  refine ⟨?_, ?_, by simp⟩
  · intro p hp
    simp only [c7_stroke, List.mem_singleton] at hp
    subst hp
    norm_num [dist_sq]
  · simp only [erase_step, c7_stroke]
    norm_num [dist_sq]

/-- C7 amended: an eraser step at a point farther than the threshold from
every stroke point leaves the stroke collection exactly unchanged, provided
every stroke has at least 2 points (a stroke with fewer points is dropped
by the step's final cleanup regardless of distances). -/
theorem c7_amended_eraser_noop (strokes : List Stroke) (canvas_pos : Pos2)
    (zoom : ℚ)
    (hlen : ∀ s ∈ strokes, 2 ≤ s.points.length)
    (hfar : ∀ s ∈ strokes, ∀ p ∈ s.points,
      (10 / zoom) ^ 2 < dist_sq p canvas_pos) :
    erase_step strokes canvas_pos zoom = strokes := by
  simp only [erase_step]
  have hmap : (strokes.map fun s =>
      { s with points := s.points.filter fun p =>
          (10 / zoom) ^ 2 ≤ dist_sq p canvas_pos }) = strokes := by
    conv_rhs => rw [← List.map_id strokes]
    apply List.map_congr_left
    intro s hs
    have hpts : (s.points.filter fun p =>
        (10 / zoom) ^ 2 ≤ dist_sq p canvas_pos) = s.points := by
      rw [List.filter_eq_self]
      intro p hp
      simpa using le_of_lt (hfar s hs p hp)
    simp [hpts]
  rw [hmap, List.filter_eq_self]
  intro s hs
  have := hlen s hs
  simp only [decide_eq_true_eq]
  omega

/-- Witness strokes for C7: one two-point stroke far from the eraser. -/
def c7_witness_strokes : List Stroke :=
  [⟨[⟨100, 100⟩, ⟨200, 200⟩], ⟨187, 192, 206, 255⟩, 2⟩]

/-- Witness for C7 at zoom 1 and eraser position at the origin. -/
theorem c7_amended_eraser_noop_witness :
    ((∀ s ∈ c7_witness_strokes, 2 ≤ s.points.length) ∧
     (∀ s ∈ c7_witness_strokes, ∀ p ∈ s.points,
       (10 / (1 : ℚ)) ^ 2 < dist_sq p ⟨0, 0⟩)) ∧
    erase_step c7_witness_strokes ⟨0, 0⟩ 1 = c7_witness_strokes := by
  have hlen : ∀ s ∈ c7_witness_strokes, 2 ≤ s.points.length := by
    intro s hs
    simp only [c7_witness_strokes, List.mem_singleton] at hs
    subst hs
    simp
  have hfar : ∀ s ∈ c7_witness_strokes, ∀ p ∈ s.points,
      (10 / (1 : ℚ)) ^ 2 < dist_sq p ⟨0, 0⟩ := by
    intro s hs p hp
    simp only [c7_witness_strokes, List.mem_singleton] at hs
    subst hs
    simp only [List.mem_cons, List.mem_singleton, List.not_mem_nil, or_false] at hp
    rcases hp with hp | hp <;> subst hp <;> norm_num [dist_sq]
  exact ⟨⟨hlen, hfar⟩, c7_amended_eraser_noop c7_witness_strokes ⟨0, 0⟩ 1 hlen hfar⟩

end CnF
